import Mathlib

/-!
Shallow embedding of parts of geowor01/mbed-os:
  * src/features/netsocket/UDPSocket.cpp  (UDPSocket)
  * src/platform/Stream.cpp               (mbed::Stream::write / read)
  * src/features/netsocket/TLSSocketWrapper.h (TLSSocketWrapper, declaration only)

Machine integers: `nsapi_size_or_error_t` is a signed 32-bit int holding
either a byte count (non-negative) or a small negative error code; no
arithmetic is performed on it in the modelled code, so it is embedded as
`Int` with the exact NSAPI error constants.  `SocketAddress` supports a
validity test (`operator bool`) and equality; it is embedded as
`Option Nat` (`none` = default-constructed / invalid address).

The UDPSocket send/receive retry loops interact with an external network
stack, an event flag and a lock.  Those externals are embedded as oracles
indexed by the loop iteration: `socketPresent i` is the value of the
`_socket` member observed in the lock region of iteration `i` (it may
change across the unlock/wait/lock window, modelling a concurrent
`close()`), `sendResult i`/`recvResult i` is the return value of
`_stack->socket_sendto`/`socket_recvfrom` at attempt `i`, and
`waitTimedOut i`/`waitElapsed i` describe the `_event_flag.wait_any`
performed at iteration `i` (whether `osFlagsError` was reported, and how
long the caller actually waited).  The loops are given explicit fuel; a
run that returns `none` ran out of fuel, every claim is about completed
runs.  Statistics calls (`_socket_stats.*`) and the `_pending = 0` sigio
bookkeeping touch no state the claims mention and are omitted.  The
`MBED_CONF_RTOS_PRESENT` build (the one with the event flag) is modelled.
-/

namespace Nsapi

def NSAPI_ERROR_OK : Int := 0
def NSAPI_ERROR_WOULD_BLOCK : Int := -3001
def NSAPI_ERROR_UNSUPPORTED : Int := -3002
def NSAPI_ERROR_NO_SOCKET : Int := -3005
def NSAPI_ERROR_NO_ADDRESS : Int := -3006
def NSAPI_ERROR_DNS_FAILURE : Int := -3009
def NSAPI_ERROR_IN_PROGRESS : Int := -3013

end Nsapi

namespace UDP

open Nsapi

/-- Observable actions of one `UDPSocket::sendto` / `recvfrom` call, in
program order.  `wait tmo elapsed timedOut` records one
`_event_flag.wait_any(flag, tmo)` call during which the caller waited
`elapsed` time units and which reported `osFlagsError` iff `timedOut`;
the unlock/relock pair surrounding the wait is folded into the event.
`discard r a` records a `socket_recvfrom` attempt whose datagram (byte
count `r`, source address `a`) was dropped by the connected-peer filter
(`continue`).  `checkNoSocket` records the loop-top `!_socket` test
succeeding. -/
inductive Ev where
  | lockEv : Ev
  | unlockEv : Ev
  | incWriters (v : Nat) : Ev
  | decWriters (v : Nat) : Ev
  | incReaders (v : Nat) : Ev
  | decReaders (v : Nat) : Ev
  | checkNoSocket : Ev
  | attempt (r : Int) : Ev
  | discard (r : Int) (a : Option Nat) : Ev
  | wait (tmo : Nat) (elapsed : Nat) (timedOut : Bool) : Ev
  | setFinished : Ev
deriving Repr, DecidableEq

def Ev.isWait : Ev → Bool
  | .wait _ _ _ => true
  | _ => false

def Ev.isAttempt : Ev → Bool
  | .attempt _ => true
  | _ => false

def Ev.isDiscard : Ev → Bool
  | .discard _ _ => true
  | _ => false

def Ev.isDecW : Ev → Bool
  | .decWriters _ => true
  | _ => false

def Ev.isDecR : Ev → Bool
  | .decReaders _ => true
  | _ => false

/-- Events produced inside the retry loop body (as opposed to the
enter/exit bookkeeping of the surrounding call). -/
def Ev.isLoopEv : Ev → Bool
  | .checkNoSocket => true
  | .attempt _ => true
  | .discard _ _ => true
  | .wait _ _ _ => true
  | _ => false

/-- Events that open a new execution of the loop body: the `!_socket`
check, a transfer attempt, or a filtered-out transfer attempt. -/
def Ev.isLoopEntry : Ev → Bool
  | .checkNoSocket => true
  | .attempt _ => true
  | .discard _ _ => true
  | _ => false

def Ev.elapsedOf : Ev → Nat
  | .wait _ e _ => e
  | _ => 0

/-- Total time the call spent parked on the event flag. -/
def totalWait (evs : List Ev) : Nat := (evs.map Ev.elapsedOf).sum

def Ev.tmoOf : Ev → Nat
  | .wait t _ _ => t
  | _ => 0

/-- The timeout arguments passed to `_event_flag.wait_any`, in order. -/
def waitTmos (evs : List Ev) : List Nat := (evs.filter Ev.isWait).map Ev.tmoOf

/-- Event-flag semantics: a wait never lasts longer than the timeout it
was passed, and a wait that reported `osFlagsError` (timeout expiry)
lasted exactly that timeout. -/
def waitsWellFormed (evs : List Ev) : Bool :=
  evs.all fun e =>
    match e with
    | .wait t el tout => el ≤ t && (!tout || el == t)
    | _ => true

/-- Every `discard` event is immediately followed by a loop-body-entry
event: the loop re-runs at once, it neither returns nor waits after
dropping a filtered datagram. -/
def discardRetries : List Ev → Bool
  | [] => true
  | Ev.discard _ _ :: rest =>
      (match rest.head? with
       | some e => e.isLoopEntry
       | none => false) && discardRetries rest
  | _ :: rest => discardRetries rest

/-- External world of one `UDPSocket::sendto` call (oracles indexed by
loop iteration, see the module comment). -/
structure SendEnv where
  socketPresent : Nat → Bool
  sendResult : Nat → Int
  waitTimedOut : Nat → Bool
  waitElapsed : Nat → Nat

/-- Result of a completed send/receive retry loop: the returned
`nsapi_size_or_error_t`, the index of the lock region in which the loop
broke (the `_socket` value read by the post-loop `if (!_socket || ...)`
is `socketPresent breakEpoch`), and the event trace. -/
structure SendRun where
  ret : Int
  breakEpoch : Nat
  events : List Ev
deriving Repr, DecidableEq

/-- The `while (true)` loop of `UDPSocket::sendto`
(src/features/netsocket/UDPSocket.cpp lines 66-100), starting at
iteration `i`:
  * `if (!_socket) { ret = NSAPI_ERROR_NO_SOCKET; break; }`
  * `sent = _stack->socket_sendto(...)`
  * `if ((0 == _timeout) || (NSAPI_ERROR_WOULD_BLOCK != sent)) { ret = sent; break; }`
  * otherwise unlock, `flag = _event_flag.wait_any(WRITE_FLAG, _timeout)`,
    relock; `if (flag & osFlagsError) { ret = NSAPI_ERROR_WOULD_BLOCK; break; }`
    else next iteration. -/
def sendtoAux (env : SendEnv) (timeout : Nat) : Nat → Nat → Option SendRun
  | 0, _ => none
  | fuel + 1, i =>
    if env.socketPresent i = false then
      some ⟨NSAPI_ERROR_NO_SOCKET, i, [Ev.checkNoSocket]⟩
    else
      let sent := env.sendResult i
      if timeout = 0 ∨ sent ≠ NSAPI_ERROR_WOULD_BLOCK then
        some ⟨sent, i, [Ev.attempt sent]⟩
      else if env.waitTimedOut i then
        some ⟨NSAPI_ERROR_WOULD_BLOCK, i + 1,
              [Ev.attempt sent, Ev.wait timeout (env.waitElapsed i) true]⟩
      else
        match sendtoAux env timeout fuel (i + 1) with
        | none => none
        | some r =>
            some { r with events :=
                     Ev.attempt sent :: Ev.wait timeout (env.waitElapsed i) false :: r.events }

/-- `UDPSocket::sendto(address, data, size)`
(src/features/netsocket/UDPSocket.cpp lines 56-110): lock, `_writers++`,
run the retry loop, `_writers--`, set `FINISHED_FLAG` iff
`!_socket || !_writers`, unlock, return.  `w0` is the number of other
writers active for the whole call (the `_writers` value at entry), so
the counter is `w0 + 1` between the increment and the decrement and back
to `w0` after it. -/
def sendto (env : SendEnv) (timeout w0 fuel : Nat) : Option SendRun :=
  match sendtoAux env timeout fuel 0 with
  | none => none
  | some r =>
      let fin : List Ev :=
        if env.socketPresent r.breakEpoch = false ∨ w0 = 0 then [Ev.setFinished] else []
      some { r with events :=
               [Ev.lockEv, Ev.incWriters (w0 + 1)] ++ r.events
                 ++ [Ev.decWriters w0] ++ fin ++ [Ev.unlockEv] }

/-- External world of one `UDPSocket::recvfrom` call.  `recvAddr i` is
the content of the caller's `SocketAddress` out-parameter after the
`socket_recvfrom` attempt of iteration `i` (the stack writes the
datagram's source address there). -/
structure RecvEnv where
  socketPresent : Nat → Bool
  recvResult : Nat → Int
  recvAddr : Nat → Option Nat
  waitTimedOut : Nat → Bool
  waitElapsed : Nat → Nat

/-- Result of a completed `recvfrom` call: returned code, final content
of the address out-parameter, break lock-region index, event trace. -/
structure RecvRun where
  ret : Int
  addr : Option Nat
  breakEpoch : Nat
  events : List Ev
deriving Repr, DecidableEq

/-- The `while (true)` loop of `UDPSocket::recvfrom`
(src/features/netsocket/UDPSocket.cpp lines 134-176), starting at
iteration `i` with the address out-parameter holding `a`:
  * `if (!_socket) { ret = NSAPI_ERROR_NO_SOCKET; break; }`
  * `recv = _stack->socket_recvfrom(_socket, address, buffer, size)`
  * `if (recv >= 0 && _remote_peer && _remote_peer != *address) continue;`
    (connected-peer filter: drop and immediately retry)
  * `if ((0 == _timeout) || (NSAPI_ERROR_WOULD_BLOCK != recv)) { ret = recv; break; }`
  * otherwise unlock, `flag = _event_flag.wait_any(READ_FLAG, _timeout)`,
    relock; `if (flag & osFlagsError) { ret = NSAPI_ERROR_WOULD_BLOCK; break; }`
    else next iteration.
`peer` is `_remote_peer` (`none` when no peer is connected: the
`_remote_peer` boolean test fails on the default-constructed address). -/
def recvfromAux (env : RecvEnv) (timeout : Nat) (peer : Option Nat) :
    Nat → Nat → Option Nat → Option RecvRun
  | 0, _, _ => none
  | fuel + 1, i, a =>
    if env.socketPresent i = false then
      some ⟨NSAPI_ERROR_NO_SOCKET, a, i, [Ev.checkNoSocket]⟩
    else
      let recv := env.recvResult i
      let a2 := env.recvAddr i
      if 0 ≤ recv ∧ peer.isSome = true ∧ peer ≠ a2 then
        match recvfromAux env timeout peer fuel (i + 1) a2 with
        | none => none
        | some r => some { r with events := Ev.discard recv a2 :: r.events }
      else if timeout = 0 ∨ recv ≠ NSAPI_ERROR_WOULD_BLOCK then
        some ⟨recv, a2, i, [Ev.attempt recv]⟩
      else if env.waitTimedOut i then
        some ⟨NSAPI_ERROR_WOULD_BLOCK, a2, i + 1,
              [Ev.attempt recv, Ev.wait timeout (env.waitElapsed i) true]⟩
      else
        match recvfromAux env timeout peer fuel (i + 1) a2 with
        | none => none
        | some r =>
            some { r with events :=
                     Ev.attempt recv :: Ev.wait timeout (env.waitElapsed i) false :: r.events }

/-- `UDPSocket::recvfrom(address, buffer, size)`
(src/features/netsocket/UDPSocket.cpp lines 120-187): lock (a null
`address` argument is replaced by a local `ignored` cell, so there is
always an address cell, with initial content `a0`), `_readers++`, run
the retry loop, `_readers--`, set `FINISHED_FLAG` iff
`!_socket || !_readers`, unlock, return.  `r0` is the `_readers` value
at entry. -/
def recvfrom (env : RecvEnv) (timeout r0 fuel : Nat) (peer a0 : Option Nat) :
    Option RecvRun :=
  match recvfromAux env timeout peer fuel 0 a0 with
  | none => none
  | some r =>
      let fin : List Ev :=
        if env.socketPresent r.breakEpoch = false ∨ r0 = 0 then [Ev.setFinished] else []
      some { r with events :=
               [Ev.lockEv, Ev.incReaders (r0 + 1)] ++ r.events
                 ++ [Ev.decReaders r0] ++ fin ++ [Ev.unlockEv] }

/-- `UDPSocket::send(data, size)`
(src/features/netsocket/UDPSocket.cpp lines 112-118):
`if (!_remote_peer) return NSAPI_ERROR_NO_ADDRESS;` then delegate to
`sendto(_remote_peer, data, size)`.  The early return happens before the
lock is taken, so its event trace is empty. -/
def send (env : SendEnv) (peer : Option Nat) (timeout w0 fuel : Nat) : Option SendRun :=
  if peer.isSome = false then
    some ⟨NSAPI_ERROR_NO_ADDRESS, 0, []⟩
  else
    sendto env timeout w0 fuel

/-- `UDPSocket::recv(buffer, size)`
(src/features/netsocket/UDPSocket.cpp lines 189-192): a plain delegation
`return recvfrom(NULL, buffer, size);` — no connected-peer check.  The
null address argument becomes the local `ignored` cell, whose initial
(default-constructed) content is the invalid address `none`. -/
def recv (env : RecvEnv) (timeout r0 fuel : Nat) (peer : Option Nat) : Option RecvRun :=
  recvfrom env timeout r0 fuel peer none

/-- The `UDPSocket` member state touched by `connect` / `listen` /
`accept`: just the `_remote_peer` member (statistics objects are
external). -/
structure SockState where
  remote_peer : Option Nat
deriving Repr, DecidableEq

/-- `UDPSocket::connect(address)`
(src/features/netsocket/UDPSocket.cpp lines 35-41): store the address
into `_remote_peer`, update statistics (external, not modelled), return
`NSAPI_ERROR_OK`.  No transport-level call is made and nothing can
fail. -/
def connect (s : SockState) (address : Option Nat) : Int × SockState :=
  (NSAPI_ERROR_OK, { s with remote_peer := address })

/-- `UDPSocket::listen(backlog)`
(src/features/netsocket/UDPSocket.cpp lines 203-206): unconditionally
`return NSAPI_ERROR_UNSUPPORTED;`, touching no member (the C++ backlog
parameter is unnamed and unused). -/
def listen (s : SockState) (_backlog : Int) : Int × SockState :=
  (NSAPI_ERROR_UNSUPPORTED, s)

/-- `UDPSocket::accept(error)`
(src/features/netsocket/UDPSocket.cpp lines 194-201): if the `error`
out-parameter is non-null write `NSAPI_ERROR_UNSUPPORTED` into it,
return `NULL`, touching no member.  The returned triple is (socket
pointer — `none` is `NULL`, value written through `error`, state). -/
def accept (s : SockState) (errorPtrPresent : Bool) : Option Unit × Option Int × SockState :=
  (none, if errorPtrPresent then some NSAPI_ERROR_UNSUPPORTED else none, s)

/-- The last event of a trace is not a `discard` (used to compose
`discardRetries` across list concatenation). -/
def lastNotDiscard : List Ev → Bool
  | [] => true
  | [e] => !e.isDiscard
  | _ :: e :: rest => lastNotDiscard (e :: rest)

end UDP

namespace TLS

open Nsapi

/-- Modelled from the spec: externals of `TLSSocketWrapper::start_handshake`,
whose implementation file (TLSSocketWrapper.cpp) is not in src/ — only
the declaration and documentation in
src/features/netsocket/TLSSocketWrapper.h are.  `transportConnect k` is
the result of the `k`-th transport-level `connect()` call;
`handshakeStep k` is the result of the `k`-th handshake-stepping pass
(spec.md §4.3 "Continue handshake"). -/
structure HsEnv where
  transportConnect : Nat → Int
  handshakeStep : Nat → Int

/-- Modelled from the spec: the Handshake Controller state visible to
`start_handshake` — whether the transport-level connect has completed,
plus counters of transport connect calls and handshake stepping passes
made so far (the counters index the oracles of `HsEnv`). -/
structure HsState where
  transportConnected : Bool
  connAttempts : Nat
  steps : Nat
deriving Repr, DecidableEq

def HsState.init : HsState := ⟨false, 0, 0⟩

/-- Modelled from the spec: `TLSSocketWrapper::start_handshake(first_call)`
— its implementation is missing from src/ (only the declaration in
src/features/netsocket/TLSSocketWrapper.h).  Per spec.md §4.3 "Start
handshake" and the header's doc comment ("this functions needs to know
whether this was a first call to Socket::connect() API so that
NSAPI_ERROR_INPROGRESS does not happen twice"):
  * if the transport is not yet connected, first perform the
    transport-level connect;
  * a transport connect that reports in-progress is reported to the
    caller as `NSAPI_ERROR_IN_PROGRESS` only when `first_call` is true;
    with `first_call = false` the controller does not re-report the
    transport's pending status and proceeds to handshake stepping;
  * a transport connect that succeeds marks the transport connected and
    proceeds to handshake stepping; any other transport error is
    returned as-is;
  * with the transport already connected, the call goes directly to
    handshake stepping. -/
def start_handshake (env : HsEnv) (first_call : Bool) (s : HsState) : Int × HsState :=
  if s.transportConnected then
    (env.handshakeStep s.steps, { s with steps := s.steps + 1 })
  else
    let r := env.transportConnect s.connAttempts
    let s1 : HsState := { s with connAttempts := s.connAttempts + 1 }
    if r = NSAPI_ERROR_IN_PROGRESS then
      if first_call then
        (NSAPI_ERROR_IN_PROGRESS, s1)
      else
        (env.handshakeStep s1.steps, { s1 with steps := s1.steps + 1 })
    else if r = NSAPI_ERROR_OK then
      (env.handshakeStep s1.steps,
       { s1 with transportConnected := true, steps := s1.steps + 1 })
    else
      (r, s1)

/-- Modelled from the spec: the two invocations of `start_handshake`
that one caller-perceived non-blocking `connect()` produces — the first
with `first_call = true`, the retry with `first_call = false`
(spec.md §8, "first_call semantics"). -/
def connectTwice (env : HsEnv) : (Int × HsState) × (Int × HsState) :=
  let p1 := start_handshake env true HsState.init
  let p2 := start_handshake env false p1.2
  (p1, p2)

end TLS

namespace Strm

/-- `EOF` from `<stdio.h>`. -/
def EOF : Int := -1

/-- `mbed::Stream::write(buffer, length)`
(src/platform/Stream.cpp lines 104-118), with the buffer as a byte list
and the per-character device `_putc` as an oracle giving the return
value of its `k`-th call:

    while (ptr != end) { if (_putc(*ptr++) == EOF) break; }
    return ptr - (const char *)buffer;

`ptr` is incremented before the EOF test, so the byte on which `_putc`
reports `EOF` is counted in the returned value. -/
def streamWrite (putcRes : Nat → Int) : Nat → List Int → Nat
  | _, [] => 0
  | k, _ :: rest =>
    if putcRes k = EOF then 1
    else 1 + streamWrite putcRes (k + 1) rest

/-- The write count as the claim states it: "the number of leading bytes
of the buffer accepted by the per-character output before the first EOF
result (length itself when no EOF occurs)".  Stated from the claim's
words, to be compared with `streamWrite`. -/
def claimedWriteCount (putcRes : Nat → Int) : Nat → List Int → Nat
  | _, [] => 0
  | k, _ :: rest =>
    if putcRes k = EOF then 0
    else 1 + claimedWriteCount putcRes (k + 1) rest

/-- `mbed::Stream::read(buffer, length)`
(src/platform/Stream.cpp lines 120-136), with `_getc` as an oracle
giving the return value of its `k`-th call and the caller's buffer (of
`length` cells) as a list of its initial contents:

    while (ptr != end) { int c = _getc(); if (c == EOF) break; *ptr++ = c; }
    return ptr - (const char *)buffer;

Returns the pair (returned count, final buffer contents): `ptr` is
advanced only after a successful store, so cells past the returned
count keep their initial contents. -/
def streamRead (getcRes : Nat → Int) : Nat → List Int → Nat × List Int
  | _, [] => (0, [])
  | k, b :: rest =>
    let c := getcRes k
    if c = EOF then (0, b :: rest)
    else
      let p := streamRead getcRes (k + 1) rest
      (p.1 + 1, c :: p.2)

/-- The read count as the claim states it: "the number of characters
stored before the first EOF from the per-character input", over a buffer
of `n` cells.  Stated from the claim's words, to be compared with
`streamRead`. -/
def claimedReadCount (getcRes : Nat → Int) : Nat → Nat → Nat
  | _, 0 => 0
  | k, n + 1 =>
    if getcRes k = EOF then 0
    else 1 + claimedReadCount getcRes (k + 1) n

end Strm

/-! ## Concrete scenario environments -/

/-- A send environment with the socket always open, the stack reporting
would-block on every attempt, a first event-flag wait woken after 60
time units (no `osFlagsError`), and every later wait expiring (full
timeout consumed). -/
def sendEnvC2 : UDP.SendEnv :=
  { socketPresent := fun _ => true
    sendResult := fun _ => Nsapi.NSAPI_ERROR_WOULD_BLOCK
    waitTimedOut := fun i => decide (1 ≤ i)
    waitElapsed := fun i => if i = 0 then 60 else 100 }

/-- A receive environment whose stack delivers a 5-byte datagram from
address 7 on the first attempt. -/
def recvEnvC3 : UDP.RecvEnv :=
  { socketPresent := fun _ => true
    recvResult := fun _ => 5
    recvAddr := fun _ => some 7
    waitTimedOut := fun _ => false
    waitElapsed := fun _ => 0 }

/-- A send environment whose stack accepts a 3-byte datagram at once. -/
def sendEnvOk : UDP.SendEnv :=
  ⟨fun _ => true, fun _ => 3, fun _ => false, fun _ => 0⟩

/-- A receive environment whose stack delivers a 5-byte datagram from
address 7 at once. -/
def recvEnvOk : UDP.RecvEnv :=
  ⟨fun _ => true, fun _ => 5, fun _ => some 7, fun _ => false, fun _ => 0⟩

/-! ## Helper lemmas -/

namespace Strm

theorem claimedWriteCount_le (putcRes : Nat → Int) :
    ∀ (k : Nat) (buf : List Int), claimedWriteCount putcRes k buf ≤ buf.length := by
  intro k buf
  induction buf generalizing k with
  | nil => simp [claimedWriteCount]
  | cons b rest ih =>
    rw [claimedWriteCount]
    split
    · simp
    · have := ih (k + 1)
      simp only [List.length_cons]
      omega

theorem streamWrite_eq_claimed (putcRes : Nat → Int) :
    ∀ (k : Nat) (buf : List Int),
      streamWrite putcRes k buf =
        (if claimedWriteCount putcRes k buf = buf.length then buf.length
         else claimedWriteCount putcRes k buf + 1) := by
  intro k buf
  induction buf generalizing k with
  | nil => simp [streamWrite, claimedWriteCount]
  | cons b rest ih =>
    rw [streamWrite, claimedWriteCount]
    split
    · simp only [List.length_cons]
      rw [if_neg (by omega)]
    · rw [ih (k + 1)]
      have := claimedWriteCount_le putcRes (k + 1) rest
      simp only [List.length_cons]
      split <;> split <;> omega

theorem streamRead_count (getcRes : Nat → Int) :
    ∀ (k : Nat) (buf : List Int),
      (streamRead getcRes k buf).1 = claimedReadCount getcRes k buf.length := by
  intro k buf
  induction buf generalizing k with
  | nil => simp [streamRead, claimedReadCount]
  | cons b rest ih =>
    rw [streamRead]
    simp only [List.length_cons, claimedReadCount]
    split
    · rfl
    · simp only [ih (k + 1)]
      omega

theorem streamRead_len (getcRes : Nat → Int) :
    ∀ (k : Nat) (buf : List Int),
      (streamRead getcRes k buf).2.length = buf.length := by
  intro k buf
  induction buf generalizing k with
  | nil => simp [streamRead]
  | cons b rest ih =>
    rw [streamRead]
    split
    · rfl
    · simp [ih (k + 1)]

theorem streamRead_untouched_tail (getcRes : Nat → Int) :
    ∀ (k : Nat) (buf : List Int),
      (streamRead getcRes k buf).2.drop (streamRead getcRes k buf).1
        = buf.drop (streamRead getcRes k buf).1 := by
  intro k buf
  induction buf generalizing k with
  | nil => simp [streamRead]
  | cons b rest ih =>
    rw [streamRead]
    split
    · rfl
    · simpa using ih (k + 1)

end Strm

namespace UDP

theorem sendtoAux_inv (env : SendEnv) (t : Nat) :
    ∀ fuel i o, sendtoAux env t fuel i = some o →
      (∀ e ∈ o.events, e.isLoopEv = true)
      ∧ (∀ tmo el tout, Ev.wait tmo el tout ∈ o.events → tmo = t)
      ∧ o.events ≠ [] := by
  intro fuel
  induction fuel with
  | zero => intro i o h; simp [sendtoAux] at h
  | succ n ih =>
    intro i o h
    simp only [sendtoAux] at h
    split at h
    · injection h with h
      subst h
      refine ⟨?_, ?_, by simp⟩
      · intro e he
        simp only [List.mem_singleton] at he
        subst he; rfl
      · intro tmo el tout hw
        simp at hw
    · split at h
      · injection h with h
        subst h
        refine ⟨?_, ?_, by simp⟩
        · intro e he
          simp only [List.mem_singleton] at he
          subst he; rfl
        · intro tmo el tout hw
          simp at hw
      · split at h
        · injection h with h
          subst h
          refine ⟨?_, ?_, by simp⟩
          · intro e he
            simp only [List.mem_cons, List.mem_singleton] at he
            rcases he with he | he | he <;> first | (subst he; rfl) | simp at he
          · intro tmo el tout hw
            simp only [List.mem_cons, List.mem_singleton] at hw
            rcases hw with hw | hw | hw
            · simp at hw
            · simp only [Ev.wait.injEq] at hw
              exact hw.1
            · simp at hw
        · cases hrec : sendtoAux env t n (i + 1) with
          | none => rw [hrec] at h; simp at h
          | some r =>
            rw [hrec] at h
            simp only [Option.some.injEq] at h
            subst h
            obtain ⟨ha, hb, _⟩ := ih (i + 1) r hrec
            refine ⟨?_, ?_, by simp⟩
            · intro e he
              simp only [List.mem_cons] at he
              rcases he with he | he | he
              · subst he; rfl
              · subst he; rfl
              · exact ha e he
            · intro tmo el tout hw
              simp only [List.mem_cons] at hw
              rcases hw with hw | hw | hw
              · simp at hw
              · simp only [Ev.wait.injEq] at hw
                exact hw.1
              · exact hb tmo el tout hw

theorem discardRetries_cons_of_not_discard (x : Ev) (rest : List Ev)
    (hx : x.isDiscard = false) :
    discardRetries (x :: rest) = discardRetries rest := by
  cases x <;> simp_all [discardRetries, Ev.isDiscard]

theorem lastNotDiscard_cons (x : Ev) (e : Ev) (rest : List Ev) :
    lastNotDiscard (x :: e :: rest) = lastNotDiscard (e :: rest) := rfl

theorem discardRetries_append (ys : List Ev)
    (hy : discardRetries ys = true) :
    ∀ xs, discardRetries xs = true → lastNotDiscard xs = true →
      discardRetries (xs ++ ys) = true := by
  intro xs
  induction xs with
  | nil => intro _ _; simpa using hy
  | cons x rest ih =>
    intro hx hlast
    by_cases hd : x.isDiscard = true
    · -- x is a discard: rest must be nonempty with a loop-entry head
      obtain ⟨r, a, rfl⟩ : ∃ r a, x = Ev.discard r a := by
        cases x <;> first | exact ⟨_, _, rfl⟩ | simp [Ev.isDiscard] at hd
      cases rest with
      | nil => simp [lastNotDiscard, Ev.isDiscard] at hlast
      | cons e rest2 =>
        simp only [discardRetries, List.head?_cons, Bool.and_eq_true] at hx
        have hre : discardRetries (e :: rest2 ++ ys) = true :=
          ih hx.2 (by rw [lastNotDiscard_cons] at hlast; exact hlast)
        simp only [List.cons_append, discardRetries, List.head?_cons, List.cons_append,
                   Bool.and_eq_true]
        exact ⟨hx.1, hre⟩
    · -- x is not a discard: the checker just recurses
      have hd' : x.isDiscard = false := by simpa using hd
      rw [List.cons_append, discardRetries_cons_of_not_discard x _ hd']
      rw [discardRetries_cons_of_not_discard x rest hd'] at hx
      cases rest with
      | nil => simpa using hy
      | cons e rest2 =>
        exact ih hx (by rw [lastNotDiscard_cons] at hlast; exact hlast)

theorem recvfromAux_inv (env : RecvEnv) (t : Nat) (peer : Option Nat) :
    ∀ fuel i a o, recvfromAux env t peer fuel i a = some o →
      (∀ e ∈ o.events, e.isLoopEv = true)
      ∧ (∀ tmo el tout, Ev.wait tmo el tout ∈ o.events → tmo = t)
      ∧ (∃ e es, o.events = e :: es ∧ e.isLoopEntry = true)
      ∧ discardRetries o.events = true
      ∧ lastNotDiscard o.events = true := by
  intro fuel
  induction fuel with
  | zero => intro i a o h; simp [recvfromAux] at h
  | succ n ih =>
    intro i a o h
    simp only [recvfromAux] at h
    split at h
    · injection h with h
      subst h
      refine ⟨?_, ?_, ⟨_, _, rfl, rfl⟩, rfl, rfl⟩
      · intro e he
        simp only [List.mem_singleton] at he
        subst he; rfl
      · intro tmo el tout hw
        simp at hw
    · split at h
      · -- connected-peer filter: discard and retry
        cases hrec : recvfromAux env t peer n (i + 1) (env.recvAddr i) with
        | none => rw [hrec] at h; simp at h
        | some r =>
          rw [hrec] at h
          simp only [Option.some.injEq] at h
          subst h
          obtain ⟨ha, hb, ⟨e, es, hev, hentry⟩, hd, hl⟩ := ih (i + 1) (env.recvAddr i) r hrec
          refine ⟨?_, ?_, ⟨_, _, rfl, rfl⟩, ?_, ?_⟩
          · intro e2 he2
            simp only [List.mem_cons] at he2
            rcases he2 with he2 | he2
            · subst he2; rfl
            · exact ha e2 he2
          · intro tmo el tout hw
            simp only [List.mem_cons] at hw
            rcases hw with hw | hw
            · simp at hw
            · exact hb tmo el tout hw
          · rw [hev] at hd
            simp only [discardRetries, hev, List.head?_cons, Bool.and_eq_true]
            exact ⟨hentry, hd⟩
          · rw [hev, lastNotDiscard_cons]
            rw [hev] at hl
            exact hl
      · split at h
        · injection h with h
          subst h
          refine ⟨?_, ?_, ⟨_, _, rfl, rfl⟩, rfl, rfl⟩
          · intro e he
            simp only [List.mem_singleton] at he
            subst he; rfl
          · intro tmo el tout hw
            simp at hw
        · split at h
          · injection h with h
            subst h
            refine ⟨?_, ?_, ⟨_, _, rfl, rfl⟩, rfl, rfl⟩
            · intro e he
              simp only [List.mem_cons, List.mem_singleton] at he
              rcases he with he | he | he <;> first | (subst he; rfl) | simp at he
            · intro tmo el tout hw
              simp only [List.mem_cons, List.mem_singleton] at hw
              rcases hw with hw | hw | hw
              · simp at hw
              · simp only [Ev.wait.injEq] at hw
                exact hw.1
              · simp at hw
          · cases hrec : recvfromAux env t peer n (i + 1) (env.recvAddr i) with
            | none => rw [hrec] at h; simp at h
            | some r =>
              rw [hrec] at h
              simp only [Option.some.injEq] at h
              subst h
              obtain ⟨ha, hb, ⟨e, es, hev, _⟩, hd, hl⟩ := ih (i + 1) (env.recvAddr i) r hrec
              refine ⟨?_, ?_, ⟨_, _, rfl, rfl⟩, ?_, ?_⟩
              · intro e2 he2
                simp only [List.mem_cons] at he2
                rcases he2 with he2 | he2 | he2
                · subst he2; rfl
                · subst he2; rfl
                · exact ha e2 he2
              · intro tmo el tout hw
                simp only [List.mem_cons] at hw
                rcases hw with hw | hw | hw
                · simp at hw
                · simp only [Ev.wait.injEq] at hw
                  exact hw.1
                · exact hb tmo el tout hw
              · have e1 : (Ev.attempt (env.recvResult i)).isDiscard = false := rfl
                have e2 : (Ev.wait t (env.waitElapsed i) false).isDiscard = false := rfl
                rw [discardRetries_cons_of_not_discard _ _ e1,
                    discardRetries_cons_of_not_discard _ _ e2]
                exact hd
              · rw [lastNotDiscard_cons, hev, lastNotDiscard_cons]
                rw [hev] at hl
                exact hl

theorem loopEv_props (e : Ev) (h : e.isLoopEv = true) :
    e.isDecW = false ∧ e.isDecR = false ∧ e ≠ Ev.setFinished := by
  cases e <;> simp_all [Ev.isLoopEv, Ev.isDecW, Ev.isDecR]

theorem sendto_some_elim (env : SendEnv) (t w0 fuel : Nat) (o : SendRun)
    (h : sendto env t w0 fuel = some o) :
    ∃ r, sendtoAux env t fuel 0 = some r
      ∧ o.ret = r.ret ∧ o.breakEpoch = r.breakEpoch
      ∧ o.events = [Ev.lockEv, Ev.incWriters (w0 + 1)] ++ r.events ++ [Ev.decWriters w0]
          ++ (if env.socketPresent r.breakEpoch = false ∨ w0 = 0 then [Ev.setFinished] else [])
          ++ [Ev.unlockEv] := by
  unfold sendto at h
  cases haux : sendtoAux env t fuel 0 with
  | none => rw [haux] at h; simp at h
  | some r =>
    rw [haux] at h
    simp only [Option.some.injEq] at h
    subst h
    exact ⟨r, rfl, rfl, rfl, by simp⟩

theorem recvfrom_some_elim (env : RecvEnv) (t r0 fuel : Nat) (peer a0 : Option Nat)
    (o : RecvRun) (h : recvfrom env t r0 fuel peer a0 = some o) :
    ∃ r, recvfromAux env t peer fuel 0 a0 = some r
      ∧ o.ret = r.ret ∧ o.addr = r.addr ∧ o.breakEpoch = r.breakEpoch
      ∧ o.events = [Ev.lockEv, Ev.incReaders (r0 + 1)] ++ r.events ++ [Ev.decReaders r0]
          ++ (if env.socketPresent r.breakEpoch = false ∨ r0 = 0 then [Ev.setFinished] else [])
          ++ [Ev.unlockEv] := by
  unfold recvfrom at h
  cases haux : recvfromAux env t peer fuel 0 a0 with
  | none => rw [haux] at h; simp at h
  | some r =>
    rw [haux] at h
    simp only [Option.some.injEq] at h
    subst h
    exact ⟨r, rfl, rfl, rfl, rfl, by simp⟩

theorem recvfromAux_addr_of_peer (env : RecvEnv) (t : Nat) (peer : Option Nat)
    (hpeer : peer.isSome = true) :
    ∀ fuel i a o, recvfromAux env t peer fuel i a = some o →
      0 ≤ o.ret → o.addr = peer := by
  intro fuel
  induction fuel with
  | zero => intro i a o h; simp [recvfromAux] at h
  | succ n ih =>
    intro i a o h hret
    simp only [recvfromAux] at h
    split at h
    · injection h with h
      subst h
      simp [Nsapi.NSAPI_ERROR_NO_SOCKET] at hret
    · split at h
      · cases hrec : recvfromAux env t peer n (i + 1) (env.recvAddr i) with
        | none => rw [hrec] at h; simp at h
        | some r =>
          rw [hrec] at h
          simp only [Option.some.injEq] at h
          subst h
          exact ih (i + 1) (env.recvAddr i) r hrec hret
      · split at h
        · injection h with h
          subst h
          rename_i hfilter _
          push_neg at hfilter
          exact (hfilter hret hpeer).symm
        · split at h
          · injection h with h
            subst h
            simp [Nsapi.NSAPI_ERROR_WOULD_BLOCK] at hret
          · cases hrec : recvfromAux env t peer n (i + 1) (env.recvAddr i) with
            | none => rw [hrec] at h; simp at h
            | some r =>
              rw [hrec] at h
              simp only [Option.some.injEq] at h
              subst h
              exact ih (i + 1) (env.recvAddr i) r hrec hret

theorem recvfromAux_ret_cases (env : RecvEnv) (t : Nat) (peer : Option Nat) :
    ∀ fuel i a o, recvfromAux env t peer fuel i a = some o →
      o.ret = Nsapi.NSAPI_ERROR_NO_SOCKET ∨ o.ret = Nsapi.NSAPI_ERROR_WOULD_BLOCK
      ∨ ∃ j, o.ret = env.recvResult j := by
  intro fuel
  induction fuel with
  | zero => intro i a o h; simp [recvfromAux] at h
  | succ n ih =>
    intro i a o h
    simp only [recvfromAux] at h
    split at h
    · injection h with h
      subst h
      exact Or.inl rfl
    · split at h
      · cases hrec : recvfromAux env t peer n (i + 1) (env.recvAddr i) with
        | none => rw [hrec] at h; simp at h
        | some r =>
          rw [hrec] at h
          simp only [Option.some.injEq] at h
          subst h
          exact ih (i + 1) (env.recvAddr i) r hrec
      · split at h
        · injection h with h
          subst h
          exact Or.inr (Or.inr ⟨i, rfl⟩)
        · split at h
          · injection h with h
            subst h
            exact Or.inr (Or.inl rfl)
          · cases hrec : recvfromAux env t peer n (i + 1) (env.recvAddr i) with
            | none => rw [hrec] at h; simp at h
            | some r =>
              rw [hrec] at h
              simp only [Option.some.injEq] at h
              subst h
              exact ih (i + 1) (env.recvAddr i) r hrec

end UDP

/-! ## Claim theorems -/

/-- C8: for every backlog argument `UDPSocket::listen` returns
`NSAPI_ERROR_UNSUPPORTED`, and every `UDPSocket::accept` call returns a
null socket pointer with the error out-parameter (when non-null) set to
`NSAPI_ERROR_UNSUPPORTED`; neither call changes the socket's state. -/
theorem listen_accept_unsupported (s : UDP.SockState) (backlog : Int) (ep : Bool) :
    (UDP.listen s backlog).1 = Nsapi.NSAPI_ERROR_UNSUPPORTED
    ∧ (UDP.listen s backlog).2 = s
    ∧ (UDP.accept s ep).1 = none
    ∧ (UDP.accept s true).2.1 = some Nsapi.NSAPI_ERROR_UNSUPPORTED
    ∧ (UDP.accept s false).2.1 = none
    ∧ (UDP.accept s ep).2.2 = s :=
  ⟨rfl, rfl, rfl, rfl, rfl, rfl⟩

/-- C9: `UDPSocket::connect` always returns `NSAPI_ERROR_OK` for every
address (valid or not): it only records the address as the connected
peer (statistics updates are external); being a pure assignment it makes
no transport-level call, cannot fail and never blocks. -/
theorem connect_always_succeeds (s : UDP.SockState) (address : Option Nat) :
    (UDP.connect s address).1 = Nsapi.NSAPI_ERROR_OK
    ∧ (UDP.connect s address).2.remote_peer = address :=
  ⟨rfl, rfl⟩

/-- C10 (counterexample): on a one-byte buffer whose very first `_putc`
call reports `EOF`, `mbed::Stream::write` returns 1 (the `*ptr++` in
`_putc(*ptr++)` advances past the failed byte before the EOF test),
while the claim's "number of leading bytes accepted before the first
EOF result" is 0 — so write does not return the accepted count. -/
theorem write_counts_failed_byte :
    Strm.streamWrite (fun _ => Strm.EOF) 0 [65] = 1
    ∧ Strm.claimedWriteCount (fun _ => Strm.EOF) 0 [65] = 0
    ∧ (1 : Nat) ≠ 0 :=
  ⟨rfl, rfl, by decide⟩

/-- C10 (amended): `mbed::Stream::write` returns a value between 0 and
length inclusive, equal to the number of bytes consumed from the buffer:
the number of leading bytes accepted by the per-character output plus
one for the byte on which the first `EOF` occurred (length itself when
no EOF occurs).  `mbed::Stream::read` returns the number of characters
stored before the first EOF from the per-character input, and only the
first that-many cells of the destination buffer are modified. -/
theorem write_read_counts (putcRes getcRes : Nat → Int) (k : Nat) (buf : List Int) :
    Strm.streamWrite putcRes k buf ≤ buf.length
    ∧ Strm.streamWrite putcRes k buf =
        (if Strm.claimedWriteCount putcRes k buf = buf.length then buf.length
         else Strm.claimedWriteCount putcRes k buf + 1)
    ∧ (Strm.streamRead getcRes k buf).1 = Strm.claimedReadCount getcRes k buf.length
    ∧ (Strm.streamRead getcRes k buf).2.length = buf.length
    ∧ (Strm.streamRead getcRes k buf).2.drop (Strm.streamRead getcRes k buf).1
        = buf.drop (Strm.streamRead getcRes k buf).1 := by
  refine ⟨?_, Strm.streamWrite_eq_claimed putcRes k buf, Strm.streamRead_count getcRes k buf,
          Strm.streamRead_len getcRes k buf, Strm.streamRead_untouched_tail getcRes k buf⟩
  rw [Strm.streamWrite_eq_claimed putcRes k buf]
  have := Strm.claimedWriteCount_le putcRes k buf
  split <;> omega

/-- C2 (counterexample): a `UDPSocket::sendto` call with configured
timeout 100 that is woken spuriously after 60 time units and then waits
again passes the full configured timeout 100 — not 100 − 60 = 40 — to
the second `_event_flag.wait_any`, and its two waits (each well-formed
for event-flag semantics) total 160 > 100.  The timeout is therefore not
deducted across iterations and does not bound the total wait of one
call. -/
theorem sendto_total_wait_exceeds_timeout :
    UDP.sendto sendEnvC2 100 1 3 =
      some ⟨Nsapi.NSAPI_ERROR_WOULD_BLOCK, 2,
            [UDP.Ev.lockEv, UDP.Ev.incWriters 2,
             UDP.Ev.attempt Nsapi.NSAPI_ERROR_WOULD_BLOCK, UDP.Ev.wait 100 60 false,
             UDP.Ev.attempt Nsapi.NSAPI_ERROR_WOULD_BLOCK, UDP.Ev.wait 100 100 true,
             UDP.Ev.decWriters 1, UDP.Ev.unlockEv]⟩
    ∧ UDP.waitsWellFormed
        [UDP.Ev.lockEv, UDP.Ev.incWriters 2,
         UDP.Ev.attempt Nsapi.NSAPI_ERROR_WOULD_BLOCK, UDP.Ev.wait 100 60 false,
         UDP.Ev.attempt Nsapi.NSAPI_ERROR_WOULD_BLOCK, UDP.Ev.wait 100 100 true,
         UDP.Ev.decWriters 1, UDP.Ev.unlockEv] = true
    ∧ UDP.waitTmos
        [UDP.Ev.lockEv, UDP.Ev.incWriters 2,
         UDP.Ev.attempt Nsapi.NSAPI_ERROR_WOULD_BLOCK, UDP.Ev.wait 100 60 false,
         UDP.Ev.attempt Nsapi.NSAPI_ERROR_WOULD_BLOCK, UDP.Ev.wait 100 100 true,
         UDP.Ev.decWriters 1, UDP.Ev.unlockEv] = [100, 100]
    ∧ UDP.totalWait
        [UDP.Ev.lockEv, UDP.Ev.incWriters 2,
         UDP.Ev.attempt Nsapi.NSAPI_ERROR_WOULD_BLOCK, UDP.Ev.wait 100 60 false,
         UDP.Ev.attempt Nsapi.NSAPI_ERROR_WOULD_BLOCK, UDP.Ev.wait 100 100 true,
         UDP.Ev.decWriters 1, UDP.Ev.unlockEv] = 160
    ∧ ¬ (160 ≤ 100) ∧ (100 : Nat) ≠ 100 - 60 := by
  refine ⟨?_, by decide, by decide, by decide, by decide, by decide⟩
  decide

/-- C2 (amended): the timeout argument passed to every
`_event_flag.wait_any` performed by a `UDPSocket::sendto` or
`UDPSocket::recvfrom` call is the full configured timeout — elapsed wait
time is not deducted across retry iterations, so the configured timeout
bounds each individual wait, not the total wait of the call. -/
theorem wait_gets_full_configured_timeout (senv : UDP.SendEnv) (renv : UDP.RecvEnv)
    (t1 t2 w0 r0 f1 f2 : Nat) (peer a0 : Option Nat) (so : UDP.SendRun) (ro : UDP.RecvRun)
    (hs : UDP.sendto senv t1 w0 f1 = some so)
    (hr : UDP.recvfrom renv t2 r0 f2 peer a0 = some ro) :
    (∀ tmo el tout, UDP.Ev.wait tmo el tout ∈ so.events → tmo = t1)
    ∧ (∀ tmo el tout, UDP.Ev.wait tmo el tout ∈ ro.events → tmo = t2) := by
  obtain ⟨r, haux, _, _, hev⟩ := UDP.sendto_some_elim senv t1 w0 f1 so hs
  obtain ⟨r2, haux2, _, _, _, hev2⟩ := UDP.recvfrom_some_elim renv t2 r0 f2 peer a0 ro hr
  obtain ⟨_, hw, _⟩ := UDP.sendtoAux_inv senv t1 f1 0 r haux
  obtain ⟨_, hw2, _, _, _⟩ := UDP.recvfromAux_inv renv t2 peer f2 0 a0 r2 haux2
  constructor
  · intro tmo el tout hmem
    rw [hev] at hmem
    rcases List.mem_append.mp hmem with h | h
    · rcases List.mem_append.mp h with h | h
      · rcases List.mem_append.mp h with h | h
        · rcases List.mem_append.mp h with h | h
          · simp at h
          · exact hw tmo el tout h
        · simp at h
      · split at h <;> simp at h
    · simp at h
  · intro tmo el tout hmem
    rw [hev2] at hmem
    rcases List.mem_append.mp hmem with h | h
    · rcases List.mem_append.mp h with h | h
      · rcases List.mem_append.mp h with h | h
        · rcases List.mem_append.mp h with h | h
          · simp at h
          · exact hw2 tmo el tout h
        · simp at h
      · split at h <;> simp at h
    · simp at h

/-- C2 (amended) witness: concrete runs of both directions. -/
theorem wait_gets_full_configured_timeout_witness :
    (UDP.sendto sendEnvC2 100 1 3).isSome = true
    ∧ (∀ tmo el tout,
         UDP.Ev.wait tmo el tout ∈
           [UDP.Ev.lockEv, UDP.Ev.incWriters 2,
            UDP.Ev.attempt Nsapi.NSAPI_ERROR_WOULD_BLOCK, UDP.Ev.wait 100 60 false,
            UDP.Ev.attempt Nsapi.NSAPI_ERROR_WOULD_BLOCK, UDP.Ev.wait 100 100 true,
            UDP.Ev.decWriters 1, UDP.Ev.unlockEv] → tmo = 100) := by
  have h := wait_gets_full_configured_timeout sendEnvC2
      ⟨fun _ => true, fun _ => 5, fun _ => some 7, fun _ => false, fun _ => 0⟩
      100 0 1 0 3 1 none none
      ⟨Nsapi.NSAPI_ERROR_WOULD_BLOCK, 2,
       [UDP.Ev.lockEv, UDP.Ev.incWriters 2,
        UDP.Ev.attempt Nsapi.NSAPI_ERROR_WOULD_BLOCK, UDP.Ev.wait 100 60 false,
        UDP.Ev.attempt Nsapi.NSAPI_ERROR_WOULD_BLOCK, UDP.Ev.wait 100 100 true,
        UDP.Ev.decWriters 1, UDP.Ev.unlockEv]⟩
      ⟨5, some 7, 0,
       [UDP.Ev.lockEv, UDP.Ev.incReaders 1, UDP.Ev.attempt 5, UDP.Ev.decReaders 0,
        UDP.Ev.setFinished, UDP.Ev.unlockEv]⟩
      (by decide) (by decide)
  exact ⟨by decide, h.1⟩

/-- C3 (counterexample): `UDPSocket::recv` with no connected peer
(`_remote_peer` invalid) does not return `NSAPI_ERROR_NO_ADDRESS`: on a
socket whose stack has a 5-byte datagram from address 7 available, it
returns 5 — the datagram is delivered, no peer check is performed. -/
theorem recv_without_peer_returns_datagram :
    UDP.recv recvEnvC3 0 0 1 none =
      some ⟨5, some 7, 0,
            [UDP.Ev.lockEv, UDP.Ev.incReaders 1, UDP.Ev.attempt 5,
             UDP.Ev.decReaders 0, UDP.Ev.setFinished, UDP.Ev.unlockEv]⟩
    ∧ (5 : Int) ≠ Nsapi.NSAPI_ERROR_NO_ADDRESS
    ∧ (0 : Int) ≤ 5 := by
  refine ⟨by decide, by decide, by decide⟩

/-- C3 (amended): `UDPSocket::send` with no connected peer returns
`NSAPI_ERROR_NO_ADDRESS` before taking the lock or touching the socket
(empty event trace — no data transferred); `UDPSocket::recv` performs no
such check — it delegates to `recvfrom` with a null address, and a
completed `recv` call yields `NSAPI_ERROR_NO_ADDRESS` only if the
underlying stack's `socket_recvfrom` itself produced that value. -/
theorem send_no_peer_no_address (senv : UDP.SendEnv) (renv : UDP.RecvEnv)
    (t1 t2 w0 r0 f1 f2 : Nat) (peer : Option Nat) (ro : UDP.RecvRun)
    (hr : UDP.recv renv t2 r0 f2 peer = some ro)
    (hret : ro.ret = Nsapi.NSAPI_ERROR_NO_ADDRESS) :
    UDP.send senv none t1 w0 f1 = some ⟨Nsapi.NSAPI_ERROR_NO_ADDRESS, 0, []⟩
    ∧ ∃ j, renv.recvResult j = Nsapi.NSAPI_ERROR_NO_ADDRESS := by
  refine ⟨rfl, ?_⟩
  obtain ⟨r, haux, hret2, _, _, _⟩ :=
    UDP.recvfrom_some_elim renv t2 r0 f2 peer none ro hr
  rcases UDP.recvfromAux_ret_cases renv t2 peer f2 0 none r haux with h | h | ⟨j, h⟩
  · rw [hret, h] at hret2
    simp [Nsapi.NSAPI_ERROR_NO_ADDRESS, Nsapi.NSAPI_ERROR_NO_SOCKET] at hret2
  · rw [hret, h] at hret2
    simp [Nsapi.NSAPI_ERROR_NO_ADDRESS, Nsapi.NSAPI_ERROR_WOULD_BLOCK] at hret2
  · exact ⟨j, by rw [← h, ← hret2, hret]⟩

/-- C3 (amended) witness: a stack that itself reports `NoAddress`. -/
theorem send_no_peer_no_address_witness :
    UDP.send ⟨fun _ => true, fun _ => 0, fun _ => false, fun _ => 0⟩ none 0 0 1 =
      some ⟨Nsapi.NSAPI_ERROR_NO_ADDRESS, 0, []⟩
    ∧ ∃ j, (⟨fun _ => true, fun _ => Nsapi.NSAPI_ERROR_NO_ADDRESS, fun _ => some 7,
             fun _ => false, fun _ => 0⟩ : UDP.RecvEnv).recvResult j
             = Nsapi.NSAPI_ERROR_NO_ADDRESS :=
  send_no_peer_no_address
    ⟨fun _ => true, fun _ => 0, fun _ => false, fun _ => 0⟩
    ⟨fun _ => true, fun _ => Nsapi.NSAPI_ERROR_NO_ADDRESS, fun _ => some 7,
     fun _ => false, fun _ => 0⟩
    0 0 0 0 1 1 none
    ⟨Nsapi.NSAPI_ERROR_NO_ADDRESS, some 7, 0,
     [UDP.Ev.lockEv, UDP.Ev.incReaders 1, UDP.Ev.attempt Nsapi.NSAPI_ERROR_NO_ADDRESS,
      UDP.Ev.decReaders 0, UDP.Ev.setFinished, UDP.Ev.unlockEv]⟩
    (by decide) (by decide)

/-- C4: on a `UDPSocket` connected to peer `p`, a completed `recvfrom`
never returns a datagram from another source: whenever it returns a
non-negative byte count the source address equals the connected peer,
and every datagram dropped by the peer filter (`discard` event) is
immediately followed by a re-execution of the loop body (the `continue`
re-enters the loop rather than returning early or parking on the event
flag for the discarded datagram). -/
theorem connected_peer_filter (renv : UDP.RecvEnv) (t r0 fuel : Nat) (p : Nat)
    (a0 : Option Nat) (o : UDP.RecvRun)
    (hr : UDP.recvfrom renv t r0 fuel (some p) a0 = some o) :
    (0 ≤ o.ret → o.addr = some p)
    ∧ UDP.discardRetries o.events = true := by
  obtain ⟨r, haux, hret, haddr, _, hev⟩ :=
    UDP.recvfrom_some_elim renv t r0 fuel (some p) a0 o hr
  constructor
  · intro hge
    rw [haddr]
    exact UDP.recvfromAux_addr_of_peer renv t (some p) rfl fuel 0 a0 r haux
      (by rw [← hret]; exact hge)
  · obtain ⟨_, _, _, hd, hl⟩ := UDP.recvfromAux_inv renv t (some p) fuel 0 a0 r haux
    rw [hev]
    have hpost : ∀ fin : List UDP.Ev,
        (fin = [] ∨ fin = [UDP.Ev.setFinished]) →
        UDP.discardRetries (([UDP.Ev.lockEv, UDP.Ev.incReaders (r0 + 1)] ++ r.events
            ++ [UDP.Ev.decReaders r0] ++ fin) ++ [UDP.Ev.unlockEv]) = true := by
      intro fin hfin
      have e1 : (UDP.Ev.lockEv).isDiscard = false := rfl
      have e2 : (UDP.Ev.incReaders (r0 + 1)).isDiscard = false := rfl
      have d1 : (UDP.Ev.decReaders r0).isDiscard = false := rfl
      simp only [List.append_assoc, List.cons_append, List.nil_append]
      rw [UDP.discardRetries_cons_of_not_discard _ _ e1,
          UDP.discardRetries_cons_of_not_discard _ _ e2]
      apply UDP.discardRetries_append _ _ r.events hd hl
      rw [UDP.discardRetries_cons_of_not_discard _ _ d1]
      rcases hfin with hfin | hfin <;> subst hfin <;> rfl
    split
    · exact hpost [UDP.Ev.setFinished] (Or.inr rfl)
    · exact hpost [] (Or.inl rfl)

/-- C4 witness: peer 5 connected; a spoofed 3-byte datagram from
address 9 is discarded and the loop immediately retries, then a 4-byte
datagram from the peer is returned with the peer's address. -/
theorem connected_peer_filter_witness :
    (0 ≤ (4 : Int) →
      (some 5 : Option Nat) = some 5)
    ∧ UDP.discardRetries
        [UDP.Ev.lockEv, UDP.Ev.incReaders 1, UDP.Ev.discard 3 (some 9), UDP.Ev.attempt 4,
         UDP.Ev.decReaders 0, UDP.Ev.setFinished, UDP.Ev.unlockEv] = true := by
  have h := connected_peer_filter
    ⟨fun _ => true, fun i => if i = 0 then 3 else 4,
     fun i => if i = 0 then some 9 else some 5, fun _ => false, fun _ => 0⟩
    100 0 2 5 none
    ⟨4, some 5, 1,
     [UDP.Ev.lockEv, UDP.Ev.incReaders 1, UDP.Ev.discard 3 (some 9), UDP.Ev.attempt 4,
      UDP.Ev.decReaders 0, UDP.Ev.setFinished, UDP.Ev.unlockEv]⟩
    (by decide)
  exact ⟨fun _ => h.1 (by decide), h.2⟩

/-- C5: with configured timeout zero, if the underlying non-blocking
transfer reports would-block, `UDPSocket::sendto` and
`UDPSocket::recvfrom` return `NSAPI_ERROR_WOULD_BLOCK` immediately after
a single attempt — the event traces contain exactly one transfer attempt
and no event-flag wait, whatever fuel the loop is given. -/
theorem zero_timeout_single_attempt (senv : UDP.SendEnv) (renv : UDP.RecvEnv)
    (w0 r0 f1 f2 : Nat) (peer a0 : Option Nat)
    (hs1 : senv.socketPresent 0 = true)
    (hs2 : senv.sendResult 0 = Nsapi.NSAPI_ERROR_WOULD_BLOCK)
    (hr1 : renv.socketPresent 0 = true)
    (hr2 : renv.recvResult 0 = Nsapi.NSAPI_ERROR_WOULD_BLOCK) :
    (∃ so, UDP.sendto senv 0 w0 (f1 + 1) = some so
       ∧ so.ret = Nsapi.NSAPI_ERROR_WOULD_BLOCK
       ∧ (so.events.filter UDP.Ev.isAttempt).length = 1
       ∧ (so.events.filter UDP.Ev.isWait).length = 0)
    ∧ (∃ ro, UDP.recvfrom renv 0 r0 (f2 + 1) peer a0 = some ro
       ∧ ro.ret = Nsapi.NSAPI_ERROR_WOULD_BLOCK
       ∧ (ro.events.filter UDP.Ev.isAttempt).length = 1
       ∧ (ro.events.filter UDP.Ev.isWait).length = 0) := by
  have ha : UDP.sendtoAux senv 0 (f1 + 1) 0 =
      some ⟨Nsapi.NSAPI_ERROR_WOULD_BLOCK, 0, [UDP.Ev.attempt Nsapi.NSAPI_ERROR_WOULD_BLOCK]⟩ := by
    simp [UDP.sendtoAux, hs1, hs2]
  have hb : UDP.recvfromAux renv 0 peer (f2 + 1) 0 a0 =
      some ⟨Nsapi.NSAPI_ERROR_WOULD_BLOCK, renv.recvAddr 0, 0,
            [UDP.Ev.attempt Nsapi.NSAPI_ERROR_WOULD_BLOCK]⟩ := by
    simp [UDP.recvfromAux, hr1, hr2, Nsapi.NSAPI_ERROR_WOULD_BLOCK]
  constructor
  · refine ⟨⟨Nsapi.NSAPI_ERROR_WOULD_BLOCK, 0,
        [UDP.Ev.lockEv, UDP.Ev.incWriters (w0 + 1)]
          ++ [UDP.Ev.attempt Nsapi.NSAPI_ERROR_WOULD_BLOCK]
          ++ [UDP.Ev.decWriters w0]
          ++ (if senv.socketPresent 0 = false ∨ w0 = 0 then [UDP.Ev.setFinished] else [])
          ++ [UDP.Ev.unlockEv]⟩, ?_, rfl, ?_, ?_⟩
    · unfold UDP.sendto
      rw [ha]
    · split <;> rfl
    · split <;> rfl
  · refine ⟨⟨Nsapi.NSAPI_ERROR_WOULD_BLOCK, renv.recvAddr 0, 0,
        [UDP.Ev.lockEv, UDP.Ev.incReaders (r0 + 1)]
          ++ [UDP.Ev.attempt Nsapi.NSAPI_ERROR_WOULD_BLOCK]
          ++ [UDP.Ev.decReaders r0]
          ++ (if renv.socketPresent 0 = false ∨ r0 = 0 then [UDP.Ev.setFinished] else [])
          ++ [UDP.Ev.unlockEv]⟩, ?_, rfl, ?_, ?_⟩
    · unfold UDP.recvfrom
      rw [hb]
    · split <;> rfl
    · split <;> rfl

/-- C5 witness: concrete non-blocking sockets whose stacks report
would-block once. -/
theorem zero_timeout_single_attempt_witness :
    ((⟨fun _ => true, fun _ => Nsapi.NSAPI_ERROR_WOULD_BLOCK, fun _ => false,
       fun _ => 0⟩ : UDP.SendEnv).socketPresent 0 = true)
    ∧ (∃ so, UDP.sendto
          ⟨fun _ => true, fun _ => Nsapi.NSAPI_ERROR_WOULD_BLOCK, fun _ => false,
           fun _ => 0⟩ 0 1 1 = some so
        ∧ so.ret = Nsapi.NSAPI_ERROR_WOULD_BLOCK
        ∧ (so.events.filter UDP.Ev.isAttempt).length = 1
        ∧ (so.events.filter UDP.Ev.isWait).length = 0) :=
  ⟨by decide,
   (zero_timeout_single_attempt
      ⟨fun _ => true, fun _ => Nsapi.NSAPI_ERROR_WOULD_BLOCK, fun _ => false, fun _ => 0⟩
      ⟨fun _ => true, fun _ => Nsapi.NSAPI_ERROR_WOULD_BLOCK, fun _ => some 7,
       fun _ => false, fun _ => 0⟩
      1 1 0 0 none none (by decide) (by decide) (by decide) (by decide)).1⟩

/-- C6: whenever the retry loop of `UDPSocket::sendto` or
`UDPSocket::recvfrom` enters an iteration in whose lock region the
underlying socket handle is null — at entry (`i = 0`) or after any
number of event-flag parks during which a concurrent `close()` cleared
it — the call returns `NSAPI_ERROR_NO_SOCKET` on that iteration: the
trace of the remaining loop is exactly the null check, with no transfer
attempt and no further wait, independently of the remaining fuel. -/
theorem null_socket_returns_no_socket (senv : UDP.SendEnv) (renv : UDP.RecvEnv)
    (t1 t2 f1 f2 i1 i2 : Nat) (peer a : Option Nat)
    (h1 : senv.socketPresent i1 = false) (h2 : renv.socketPresent i2 = false) :
    UDP.sendtoAux senv t1 (f1 + 1) i1 =
      some ⟨Nsapi.NSAPI_ERROR_NO_SOCKET, i1, [UDP.Ev.checkNoSocket]⟩
    ∧ UDP.recvfromAux renv t2 peer (f2 + 1) i2 a =
      some ⟨Nsapi.NSAPI_ERROR_NO_SOCKET, a, i2, [UDP.Ev.checkNoSocket]⟩ := by
  constructor
  · simp [UDP.sendtoAux, h1]
  · simp [UDP.recvfromAux, h2]

/-- C6 witness: a socket whose handle disappears at iteration 1
(cleared while the first wait was parked). -/
theorem null_socket_returns_no_socket_witness :
    ((⟨fun i => decide (i = 0), fun _ => 0, fun _ => false, fun _ => 0⟩ :
        UDP.SendEnv).socketPresent 1 = false)
    ∧ UDP.sendtoAux
        ⟨fun i => decide (i = 0), fun _ => 0, fun _ => false, fun _ => 0⟩ 100 3 1 =
        some ⟨Nsapi.NSAPI_ERROR_NO_SOCKET, 1, [UDP.Ev.checkNoSocket]⟩
    ∧ UDP.recvfromAux
        ⟨fun i => decide (i = 0), fun _ => 0, fun _ => some 7, fun _ => false, fun _ => 0⟩
        100 (some 5) 3 1 (some 7) =
        some ⟨Nsapi.NSAPI_ERROR_NO_SOCKET, some 7, 1, [UDP.Ev.checkNoSocket]⟩ := by
  have h := null_socket_returns_no_socket
    ⟨fun i => decide (i = 0), fun _ => 0, fun _ => false, fun _ => 0⟩
    ⟨fun i => decide (i = 0), fun _ => 0, fun _ => some 7, fun _ => false, fun _ => 0⟩
    100 100 2 2 1 1 (some 5) (some 7) (by decide) (by decide)
  exact ⟨by decide, h.1, h.2⟩

/-- C7: every completed `UDPSocket::sendto` call decrements the writer
counter exactly once before returning (one `decWriters` event, carrying
the entry value `w0` — the increment undone), and sets `FINISHED_FLAG`
exactly when, after that decrement, the socket handle is null or its own
direction's counter has reached zero (`w0 = 0`, no other writer active);
when set, the flag is set as the last action before the final lock
release.  Symmetrically for `UDPSocket::recvfrom` with the reader
counter. -/
theorem counter_decrement_and_finished_flag (senv : UDP.SendEnv) (renv : UDP.RecvEnv)
    (t1 t2 w0 r0 f1 f2 : Nat) (peer a0 : Option Nat) (so : UDP.SendRun) (ro : UDP.RecvRun)
    (hs : UDP.sendto senv t1 w0 f1 = some so)
    (hr : UDP.recvfrom renv t2 r0 f2 peer a0 = some ro) :
    ((so.events.filter UDP.Ev.isDecW).length = 1
     ∧ UDP.Ev.decWriters w0 ∈ so.events
     ∧ (UDP.Ev.setFinished ∈ so.events ↔
          (senv.socketPresent so.breakEpoch = false ∨ w0 = 0))
     ∧ so.events.reverse.head? = some UDP.Ev.unlockEv
     ∧ (UDP.Ev.setFinished ∈ so.events →
          so.events.reverse.get? 1 = some UDP.Ev.setFinished))
    ∧ ((ro.events.filter UDP.Ev.isDecR).length = 1
     ∧ UDP.Ev.decReaders r0 ∈ ro.events
     ∧ (UDP.Ev.setFinished ∈ ro.events ↔
          (renv.socketPresent ro.breakEpoch = false ∨ r0 = 0))
     ∧ ro.events.reverse.head? = some UDP.Ev.unlockEv
     ∧ (UDP.Ev.setFinished ∈ ro.events →
          ro.events.reverse.get? 1 = some UDP.Ev.setFinished)) := by
  obtain ⟨r, haux, _, hbe, hev⟩ := UDP.sendto_some_elim senv t1 w0 f1 so hs
  obtain ⟨hloop, _, _⟩ := UDP.sendtoAux_inv senv t1 f1 0 r haux
  obtain ⟨r2, haux2, _, _, hbe2, hev2⟩ := UDP.recvfrom_some_elim renv t2 r0 f2 peer a0 ro hr
  obtain ⟨hloop2, _, _, _, _⟩ := UDP.recvfromAux_inv renv t2 peer f2 0 a0 r2 haux2
  have hnodec : r.events.filter UDP.Ev.isDecW = [] :=
    List.filter_eq_nil_iff.mpr fun e he => by
      simp [(UDP.loopEv_props e (hloop e he)).1]
  have hnofin : UDP.Ev.setFinished ∉ r.events := fun hm =>
    ((UDP.loopEv_props _ (hloop _ hm)).2.2) rfl
  have hnodec2 : r2.events.filter UDP.Ev.isDecR = [] :=
    List.filter_eq_nil_iff.mpr fun e he => by
      simp [(UDP.loopEv_props e (hloop2 e he)).2.1]
  have hnofin2 : UDP.Ev.setFinished ∉ r2.events := fun hm =>
    ((UDP.loopEv_props _ (hloop2 _ hm)).2.2) rfl
  constructor
  · have hC : UDP.Ev.setFinished ∈ so.events ↔
        (senv.socketPresent r.breakEpoch = false ∨ w0 = 0) := by
      rw [hev]
      by_cases hc : senv.socketPresent r.breakEpoch = false ∨ w0 = 0
      · rw [if_pos hc]
        constructor
        · intro _; exact hc
        · intro _; simp
      · rw [if_neg hc]
        constructor
        · intro hm
          rcases List.mem_append.mp hm with h | h
          · rcases List.mem_append.mp h with h | h
            · rcases List.mem_append.mp h with h | h
              · rcases List.mem_append.mp h with h | h
                · simp at h
                · exact absurd h hnofin
              · simp at h
            · simp at h
          · simp at h
        · intro hcond; exact absurd hcond hc
    refine ⟨?_, ?_, by rw [hbe]; exact hC, ?_, ?_⟩
    · rw [hev]
      simp only [List.filter_append, List.length_append, hnodec]
      split <;> simp [UDP.Ev.isDecW, List.filter]
    · rw [hev]
      simp
    · rw [hev]
      simp [List.reverse_append]
    · intro hm
      have hc := hC.mp hm
      rw [hev, if_pos hc]
      simp [List.reverse_append]
  · have hC : UDP.Ev.setFinished ∈ ro.events ↔
        (renv.socketPresent r2.breakEpoch = false ∨ r0 = 0) := by
      rw [hev2]
      by_cases hc : renv.socketPresent r2.breakEpoch = false ∨ r0 = 0
      · rw [if_pos hc]
        constructor
        · intro _; exact hc
        · intro _; simp
      · rw [if_neg hc]
        constructor
        · intro hm
          rcases List.mem_append.mp hm with h | h
          · rcases List.mem_append.mp h with h | h
            · rcases List.mem_append.mp h with h | h
              · rcases List.mem_append.mp h with h | h
                · simp at h
                · exact absurd h hnofin2
              · simp at h
            · simp at h
          · simp at h
        · intro hcond; exact absurd hcond hc
    refine ⟨?_, ?_, by rw [hbe2]; exact hC, ?_, ?_⟩
    · rw [hev2]
      simp only [List.filter_append, List.length_append, hnodec2]
      split <;> simp [UDP.Ev.isDecR, List.filter]
    · rw [hev2]
      simp
    · rw [hev2]
      simp [List.reverse_append]
    · intro hm
      have hc := hC.mp hm
      rw [hev2, if_pos hc]
      simp [List.reverse_append]

/-- C7 witness: a completed send with one other writer active (no
finished flag) and a completed receive with no other reader (finished
flag set, immediately before the final unlock). -/
theorem counter_decrement_and_finished_flag_witness :
    (([UDP.Ev.lockEv, UDP.Ev.incWriters 2, UDP.Ev.attempt 3, UDP.Ev.decWriters 1,
       UDP.Ev.unlockEv].filter UDP.Ev.isDecW).length = 1
     ∧ UDP.Ev.decWriters 1 ∈
         [UDP.Ev.lockEv, UDP.Ev.incWriters 2, UDP.Ev.attempt 3, UDP.Ev.decWriters 1,
          UDP.Ev.unlockEv]
     ∧ (UDP.Ev.setFinished ∈
          [UDP.Ev.lockEv, UDP.Ev.incWriters 2, UDP.Ev.attempt 3, UDP.Ev.decWriters 1,
           UDP.Ev.unlockEv] ↔ (sendEnvOk.socketPresent 0 = false ∨ 1 = 0))
     ∧ [UDP.Ev.lockEv, UDP.Ev.incWriters 2, UDP.Ev.attempt 3, UDP.Ev.decWriters 1,
        UDP.Ev.unlockEv].reverse.head? = some UDP.Ev.unlockEv
     ∧ (UDP.Ev.setFinished ∈
          [UDP.Ev.lockEv, UDP.Ev.incWriters 2, UDP.Ev.attempt 3, UDP.Ev.decWriters 1,
           UDP.Ev.unlockEv] →
          [UDP.Ev.lockEv, UDP.Ev.incWriters 2, UDP.Ev.attempt 3, UDP.Ev.decWriters 1,
           UDP.Ev.unlockEv].reverse.get? 1 = some UDP.Ev.setFinished))
    ∧ (([UDP.Ev.lockEv, UDP.Ev.incReaders 1, UDP.Ev.attempt 5, UDP.Ev.decReaders 0,
         UDP.Ev.setFinished, UDP.Ev.unlockEv].filter UDP.Ev.isDecR).length = 1
     ∧ UDP.Ev.decReaders 0 ∈
         [UDP.Ev.lockEv, UDP.Ev.incReaders 1, UDP.Ev.attempt 5, UDP.Ev.decReaders 0,
          UDP.Ev.setFinished, UDP.Ev.unlockEv]
     ∧ (UDP.Ev.setFinished ∈
          [UDP.Ev.lockEv, UDP.Ev.incReaders 1, UDP.Ev.attempt 5, UDP.Ev.decReaders 0,
           UDP.Ev.setFinished, UDP.Ev.unlockEv] ↔
          (recvEnvOk.socketPresent 0 = false ∨ 0 = 0))
     ∧ [UDP.Ev.lockEv, UDP.Ev.incReaders 1, UDP.Ev.attempt 5, UDP.Ev.decReaders 0,
        UDP.Ev.setFinished, UDP.Ev.unlockEv].reverse.head? = some UDP.Ev.unlockEv
     ∧ (UDP.Ev.setFinished ∈
          [UDP.Ev.lockEv, UDP.Ev.incReaders 1, UDP.Ev.attempt 5, UDP.Ev.decReaders 0,
           UDP.Ev.setFinished, UDP.Ev.unlockEv] →
          [UDP.Ev.lockEv, UDP.Ev.incReaders 1, UDP.Ev.attempt 5, UDP.Ev.decReaders 0,
           UDP.Ev.setFinished, UDP.Ev.unlockEv].reverse.get? 1
            = some UDP.Ev.setFinished)) :=
  counter_decrement_and_finished_flag sendEnvOk recvEnvOk 10 10 1 0 1 1 none none
    ⟨3, 0, [UDP.Ev.lockEv, UDP.Ev.incWriters 2, UDP.Ev.attempt 3, UDP.Ev.decWriters 1,
            UDP.Ev.unlockEv]⟩
    ⟨5, some 7, 0, [UDP.Ev.lockEv, UDP.Ev.incReaders 1, UDP.Ev.attempt 5,
                    UDP.Ev.decReaders 0, UDP.Ev.setFinished, UDP.Ev.unlockEv]⟩
    (by decide) (by decide)

/-- C1: over a transport whose `connect()` reports in-progress exactly
once (call 0 returns `NSAPI_ERROR_IN_PROGRESS`, call 1 returns
`NSAPI_ERROR_OK`), `start_handshake` reports the in-progress condition
to the caller exactly once: the first invocation (`first_call = true`)
returns `NSAPI_ERROR_IN_PROGRESS` without any handshake stepping, and
the second invocation (`first_call = false`) does not re-report the
transport-level in-progress status but proceeds to handshake stepping,
returning the first stepping pass's result. -/
theorem first_call_reports_in_progress_once (env : TLS.HsEnv)
    (h0 : env.transportConnect 0 = Nsapi.NSAPI_ERROR_IN_PROGRESS)
    (h1 : env.transportConnect 1 = Nsapi.NSAPI_ERROR_OK) :
    (TLS.connectTwice env).1.1 = Nsapi.NSAPI_ERROR_IN_PROGRESS
    ∧ (TLS.connectTwice env).1.2.steps = 0
    ∧ (TLS.connectTwice env).2.1 = env.handshakeStep 0
    ∧ (TLS.connectTwice env).2.2.steps = 1 := by
  simp [TLS.connectTwice, TLS.start_handshake, TLS.HsState.init, h0, h1,
        Nsapi.NSAPI_ERROR_IN_PROGRESS, Nsapi.NSAPI_ERROR_OK]

/-- C1 witness: the scenario instantiated with a concrete environment
whose transport connect yields in-progress exactly once. -/
theorem first_call_reports_in_progress_once_witness :
    (({ transportConnect := fun k => if k = 0 then Nsapi.NSAPI_ERROR_IN_PROGRESS
                                     else Nsapi.NSAPI_ERROR_OK
        handshakeStep := fun _ => 0 } : TLS.HsEnv).transportConnect 0
          = Nsapi.NSAPI_ERROR_IN_PROGRESS)
    ∧ ((TLS.connectTwice
          { transportConnect := fun k => if k = 0 then Nsapi.NSAPI_ERROR_IN_PROGRESS
                                         else Nsapi.NSAPI_ERROR_OK
            handshakeStep := fun _ => 0 }).1.1 = Nsapi.NSAPI_ERROR_IN_PROGRESS
        ∧ (TLS.connectTwice
          { transportConnect := fun k => if k = 0 then Nsapi.NSAPI_ERROR_IN_PROGRESS
                                         else Nsapi.NSAPI_ERROR_OK
            handshakeStep := fun _ => 0 }).1.2.steps = 0
        ∧ (TLS.connectTwice
          { transportConnect := fun k => if k = 0 then Nsapi.NSAPI_ERROR_IN_PROGRESS
                                         else Nsapi.NSAPI_ERROR_OK
            handshakeStep := fun _ => 0 }).2.1
            = ({ transportConnect := fun k => if k = 0 then Nsapi.NSAPI_ERROR_IN_PROGRESS
                                              else Nsapi.NSAPI_ERROR_OK
                 handshakeStep := fun _ => 0 } : TLS.HsEnv).handshakeStep 0
        ∧ (TLS.connectTwice
          { transportConnect := fun k => if k = 0 then Nsapi.NSAPI_ERROR_IN_PROGRESS
                                         else Nsapi.NSAPI_ERROR_OK
            handshakeStep := fun _ => 0 }).2.2.steps = 1) :=
  ⟨by decide, first_call_reports_in_progress_once _ (by decide) (by decide)⟩
